import Mathlib

/-
  Verification of the Similarity-to-Embedding Engine of the QVACBaseNote
  repository.  Numbers computed by the JavaScript source are modelled as
  rationals (or elements of a linear ordered field where the algorithms are
  generic over the square-root routine); `Math.sqrt` and `Math.log` are
  modelled as explicit function parameters constrained by the algebraic laws
  of the real square root and logarithm, which lets every definition stay
  executable while theorems can be instantiated with `Real.sqrt` and
  `Real.log`.
-/

namespace ScentEngine

/-- A stored similarity record, as built by `getSimilarityScore` and by the
fallback branch of `generateSimilarityMatrix` in `llmScentEmbeddings.js`:
the two oil names, the numeric similarity score (0 to 100 scale), the
reasoning text and a timestamp. -/
structure SimEntry where
  oil1 : String
  oil2 : String
  similarity : ℚ
  reasoning : String
  timestamp : String
deriving DecidableEq

/-- `getSimilarityKey` from `llmScentEmbeddings.js`: the two oil names are
sorted (JavaScript `[oil1, oil2].sort()` on two strings keeps them when
`oil1 <= oil2` and swaps them otherwise) and joined with the separator
character. -/
def getSimilarityKey (oil1 oil2 : String) : String :=
  if oil1 ≤ oil2 then oil1 ++ "|" ++ oil2 else oil2 ++ "|" ++ oil1

/-- The similarity value read by `createDistanceMatrix` in
`llmScentEmbeddings.js`: JavaScript
`this.similarityMatrix[key]?.similarity || 50` yields 50 when the key is
absent, and also when the stored similarity is 0 (a falsy number). -/
def simLookup (sim : String → Option SimEntry) (key : String) : ℚ :=
  match sim key with
  | none => 50
  | some e => if e.similarity = 0 then 50 else e.similarity

/-- Entry `(i, j)` built by the double loop of `createDistanceMatrix` in
`llmScentEmbeddings.js`: 0 on the diagonal, otherwise
`(100 - similarity) / 100` for the looked-up similarity of the pair. -/
def distanceEntry (names : List String) (sim : String → Option SimEntry)
    (i j : Nat) : ℚ :=
  if i = j then 0
  else (100 - simLookup sim (getSimilarityKey (names.getD i "") (names.getD j ""))) / 100

/-- `createDistanceMatrix` from `llmScentEmbeddings.js`: the n by n matrix of
`distanceEntry` values, n being the number of oil names. -/
def createDistanceMatrix (names : List String) (sim : String → Option SimEntry) :
    List (List ℚ) :=
  (List.range names.length).map fun i =>
    (List.range names.length).map fun j => distanceEntry names sim i j

/-- Reading entry `(i, j)` of a matrix stored as a list of rows, with the
JavaScript out-of-range access modelled by the default 0. -/
def entryD (m : List (List ℚ)) (i j : Nat) : ℚ := (m.getD i []).getD j 0

/-- The distance matrix built inside `AINotesVisualization.generateEmbeddings`
in `testAISimilarity.js`: the similarity for the ordered key `oil1-oil2` is
read with the JavaScript expression `this.similarities[key] || 0`, so an
absent pair contributes similarity 0, and the entry is `1 - similarity`. -/
def aiNotesSimLookup (similarities : String → Option ℚ) (key : String) : ℚ :=
  match similarities key with
  | none => 0
  | some s => if s = 0 then 0 else s

/-- The matrix of `1 - similarity` entries of
`AINotesVisualization.generateEmbeddings`, with the ordered dash-joined key. -/
def aiNotesDistanceMatrix (oils : List String) (similarities : String → Option ℚ) :
    List (List ℚ) :=
  (List.range oils.length).map fun i =>
    (List.range oils.length).map fun j =>
      1 - aiNotesSimLookup similarities (oils.getD i "" ++ "-" ++ oils.getD j "")

/-- Row means computed by `centerDistanceMatrix` in `llmScentEmbeddings.js`:
each row summed and divided by the number of rows. -/
def rowMeansJS (d : List (List ℚ)) : List ℚ :=
  d.map fun row => row.sum / d.length

/-- Column means computed by `centerDistanceMatrix` in `llmScentEmbeddings.js`:
for each column index, the column entries summed and divided by the number of
rows. -/
def colMeansJS (d : List (List ℚ)) : List ℚ :=
  (List.range d.length).map fun j => (d.map fun row => row.getD j 0).sum / d.length

/-- Grand mean computed by `centerDistanceMatrix`: the mean of the row means. -/
def grandMeanJS (d : List (List ℚ)) : ℚ := (rowMeansJS d).sum / d.length

/-- `centerDistanceMatrix` from `llmScentEmbeddings.js`: each entry is the raw
distance minus row mean minus column mean plus grand mean.  The source does
not square the distances and applies no factor of minus one half. -/
def centerDistanceMatrix (d : List (List ℚ)) : List (List ℚ) :=
  (List.range d.length).map fun i =>
    (List.range d.length).map fun j =>
      (d.getD i []).getD j 0 - (rowMeansJS d).getD i 0 -
        (colMeansJS d).getD j 0 + grandMeanJS d

/-- Modelled from the spec, not from the source: square each distance entry,
then double-center the squared matrix and scale by minus one half.  This is
the formula claim C3 attributes to the centering step; it is compared with
`centerDistanceMatrix` above. -/
def specDoubleCenteredB (d : List (List ℚ)) : List (List ℚ) :=
  let dsq := d.map fun row => row.map fun x => x * x
  (List.range d.length).map fun i =>
    (List.range d.length).map fun j =>
      (-(1/2)) * ((dsq.getD i []).getD j 0 - (rowMeansJS dsq).getD i 0 -
        (colMeansJS dsq).getD j 0 + grandMeanJS dsq)

/-- One record of the `essentialOils` database: scent notes, intensity,
perfumery category, and description. -/
structure OilData where
  notes : List String
  intensity : String
  category : String
  description : String

/-- The six records of the `essentialOils` database that `FastAIDemo` in
`generateFastAIDemo.js` restricts itself to (its `demoOils` list). -/
def essentialOils : String → Option OilData := fun name =>
  if name = "lavender" then
    some ⟨["floral", "fresh", "calming", "sweet", "herbaceous"], "medium", "floral",
      "Classic calming floral with sweet undertones"⟩
  else if name = "bergamot" then
    some ⟨["citrus", "fresh", "uplifting", "bright", "earl grey"], "light", "citrus",
      "Bright citrus with distinctive Earl Grey tea character"⟩
  else if name = "sandalwood" then
    some ⟨["woody", "warm", "creamy", "sweet", "base"], "heavy", "woody",
      "Rich, creamy wood with lasting warmth"⟩
  else if name = "peppermint" then
    some ⟨["minty", "cooling", "fresh", "invigorating", "sharp"], "strong", "herbal",
      "Intensely cooling and refreshing mint"⟩
  else if name = "rose" then
    some ⟨["floral", "romantic", "sweet", "classic", "feminine"], "medium", "floral",
      "Timeless romantic floral sweetness"⟩
  else if name = "cedarwood" then
    some ⟨["woody", "dry", "warm", "grounding", "pencil shavings"], "medium", "woody",
      "Dry, warm wood with grounding qualities"⟩
  else none

/-- The `intensityMap` of `getFallbackSimilarity`: light 1, medium 2,
strong 3, heavy 4.  Every database record carries one of these four values,
so the final 0 branch is never reached on database data. -/
def intensityMap (s : String) : ℚ :=
  if s = "light" then 1 else if s = "medium" then 2
  else if s = "strong" then 3 else if s = "heavy" then 4 else 0

/-- `FastAIDemo.getFallbackSimilarity` from `generateFastAIDemo.js`: 0.4 for a
shared category, plus 0.3 weighted by intensity closeness, plus 0.3 weighted
by the Jaccard overlap of the two note sets, clamped to the unit interval.
JavaScript set sizes are modelled by list operations; the note lists of the
database contain no duplicates, so the sizes agree.  An unknown oil name
(which would make the JavaScript throw) is mapped to 0 and never used. -/
def getFallbackSimilarity (oil1 oil2 : String) : ℚ :=
  match essentialOils oil1, essentialOils oil2 with
  | some data1, some data2 =>
    let catSim : ℚ := if data1.category = data2.category then 2/5 else 0
    let intensityDiff := |intensityMap data1.intensity - intensityMap data2.intensity|
    let withIntensity := catSim + (4 - intensityDiff) / 4 * (3/10)
    let interSize := (data1.notes.filter fun x => x ∈ data2.notes).length
    let unionSize := ((data1.notes ++ data2.notes).dedup).length
    let total := withIntensity + ((interSize : ℚ) / unionSize) * (3/10)
    max 0 (min 1 total)
  | _, _ => 0

/-- The record stored by the catch branch of `generateSimilarityMatrix` in
`llmScentEmbeddings.js`: fallback score 60 for a shared category and 30
otherwise, with the matching reasoning text. -/
def fallbackEntry (cat : String → String) (ts a b : String) : SimEntry :=
  ⟨a, b, if cat a = cat b then 60 else 30,
    if cat a = cat b then "Fallback score: same category"
    else "Fallback score: different categories", ts⟩

/-- The sequence of unordered pairs visited by the nested loops of
`generateSimilarityMatrix` in `llmScentEmbeddings.js`, in loop order. -/
def allPairs : List String → List (String × String)
  | [] => []
  | x :: xs => (xs.map fun y => (x, y)) ++ allPairs xs

/-- One iteration of the pair loop of `generateSimilarityMatrix`
(`llmScentEmbeddings.js`): when the key is already cached,
`getSimilarityScore` returns the cached record and the matrix is unchanged;
otherwise the oracle (the spawned LLM process) either succeeds and its parsed
record is stored under the key, or fails and the catch block stores the
category fallback record — the loop itself never propagates the failure. -/
def stepPair (oracle : String → String → Option SimEntry) (cat : String → String)
    (ts : String) (m : String → Option SimEntry) (p : String × String) :
    String → Option SimEntry :=
  match m (getSimilarityKey p.1 p.2) with
  | some _ => m
  | none =>
    match oracle p.1 p.2 with
    | some e => fun k => if k = getSimilarityKey p.1 p.2 then some e else m k
    | none => fun k =>
        if k = getSimilarityKey p.1 p.2 then some (fallbackEntry cat ts p.1 p.2)
        else m k

/-- `generateSimilarityMatrix` from `llmScentEmbeddings.js`: the fold of
`stepPair` over all unordered pairs, starting from the cache state loaded at
the beginning of the run. -/
def generateSimilarityMatrix (oracle : String → String → Option SimEntry)
    (cat : String → String) (ts : String) (names : List String)
    (init : String → Option SimEntry) : String → Option SimEntry :=
  (allPairs names).foldl (stepPair oracle cat ts) init

/-- The persisted cache object built by `saveCache` in `llmScentEmbeddings.js`:
the similarity matrix, a timestamp, and the oil count.  JSON serialization
followed by parsing of this well-formed record is modelled as the identity;
the `similarityMatrix` field is optional because `loadCache` guards against
its absence. -/
structure CacheFile where
  similarityMatrix : Option (String → Option SimEntry)
  timestamp : String
  oilCount : Nat

/-- `saveCache` from `llmScentEmbeddings.js`: the current similarity matrix is
written together with a timestamp and the oil count. -/
def saveCache (m : String → Option SimEntry) (ts : String) (count : Nat) :
    CacheFile :=
  ⟨some m, ts, count⟩

/-- `loadCache` from `llmScentEmbeddings.js`: a missing or unreadable cache
file leaves the prior in-memory matrix untouched (the catch and the
existence check both fall through); a present file replaces the matrix with
its `similarityMatrix` field, or with the empty matrix when the field is
absent. -/
def loadCache (prior : String → Option SimEntry) (file : Option CacheFile) :
    String → Option SimEntry :=
  match file with
  | none => prior
  | some c =>
    match c.similarityMatrix with
    | none => fun _ => none
    | some m => m

/-- `dotProduct` from `llmScentEmbeddings.js`: the reduce walks the indices of
the first vector and multiplies each entry with the matching entry of the
second. -/
def dotProduct (a b : List ℚ) : ℚ :=
  ((List.range a.length).map fun i => a.getD i 0 * b.getD i 0).sum

/-- `matrixVectorMultiply` from `llmScentEmbeddings.js`. -/
def matrixVectorMultiply (matrix : List (List ℚ)) (vector : List ℚ) : List ℚ :=
  matrix.map fun row => dotProduct row vector

/-- The squared norm computed inside the power-iteration loop of
`eigenDecomposition` in `llmScentEmbeddings.js`.  The loop divides every
component of the multiplied vector by `Math.sqrt` of this value with no
epsilon floor; the real square root is zero exactly when this value is zero,
so the loop divides by zero at a step precisely when this value is zero. -/
def powerIterNormSq (matrix : List (List ℚ)) (vector : List ℚ) : ℚ :=
  ((matrixVectorMultiply matrix vector).map fun v => v * v).sum

/-- The floored divisor of the force-directed loop of
`FastAIDemo.generateEmbeddings` in `generateFastAIDemo.js`: the JavaScript
expression `Math.sqrt(dx*dx + dy*dy) || 0.001` replaces a zero distance by
1/1000 before the distance is used as a divisor. -/
def flooredDistance {K : Type} [LinearOrderedField K] (d : K) : K :=
  if d = 0 then 1/1000 else d

/-- One normalization step of the power iteration in `eigenDecomposition`
(`llmScentEmbeddings.js`): multiply the working matrix into the vector and
divide each component by the norm, `Math.sqrt` of the squared norm, with the
square root passed as an explicit parameter.  When the norm is zero the
JavaScript division yields NaN, which the rational model cannot represent
(the C5 counterexample records that divergence); the determinism statement
below does not depend on the value taken there. -/
def normalizeStep (sqrt : ℚ → ℚ) (matrix : List (List ℚ)) (v : List ℚ) : List ℚ :=
  let newVector := matrixVectorMultiply matrix v
  let norm := sqrt ((newVector.map fun x => x * x).sum)
  newVector.map fun x => x / norm

/-- The 100-iteration power loop of `eigenDecomposition`. -/
def powerIteration (sqrt : ℚ → ℚ) (matrix : List (List ℚ)) (v0 : List ℚ) :
    List ℚ :=
  (normalizeStep sqrt matrix)^[100] v0

/-- `deflateMatrix` from `llmScentEmbeddings.js`. -/
def deflateMatrix (matrix : List (List ℚ)) (eigenvector : List ℚ)
    (eigenvalue : ℚ) : List (List ℚ) :=
  (List.range matrix.length).map fun i =>
    (List.range matrix.length).map fun j =>
      (matrix.getD i []).getD j 0 -
        eigenvalue * eigenvector.getD i 0 * eigenvector.getD j 0

/-- `eigenDecomposition` from `llmScentEmbeddings.js` with `maxEigen = 2`:
the two random initial vectors, drawn component-wise from
`Math.random() - 0.5` in the source, are explicit arguments; the result is
the eigenvalue list and the transposed eigenvector matrix. -/
def eigenDecomposition (sqrt : ℚ → ℚ) (matrix : List (List ℚ))
    (init1 init2 : List ℚ) : List ℚ × List (List ℚ) :=
  let v1 := powerIteration sqrt matrix init1
  let lam1 := dotProduct v1 (matrixVectorMultiply matrix v1)
  let deflated := deflateMatrix matrix v1 lam1
  let v2 := powerIteration sqrt deflated init2
  let lam2 := dotProduct v2 (matrixVectorMultiply deflated v2)
  ([lam1, lam2],
    (List.range matrix.length).map fun i => [v1.getD i 0, v2.getD i 0])

/-- `performMDS` from `llmScentEmbeddings.js` with `dimensions = 2`: center
the distance matrix, run the eigen-extraction, and scale each eigenvector
component by the square root of the absolute eigenvalue. -/
def performMDS (sqrt : ℚ → ℚ) (distances : List (List ℚ))
    (init1 init2 : List ℚ) : List (List ℚ) :=
  let centered := centerDistanceMatrix distances
  let ed := eigenDecomposition sqrt centered init1 init2
  (List.range distances.length).map fun i =>
    (List.range 2).map fun d =>
      sqrt |ed.1.getD d 0| * (ed.2.getD i []).getD d 0

/-- Squared Euclidean distance between coordinate rows i and j of an
embedding produced by `performMDS`. -/
def coordDistSq (coords : List (List ℚ)) (i j : Nat) : ℚ :=
  (entryD coords i 0 - entryD coords j 0) * (entryD coords i 0 - entryD coords j 0) +
    (entryD coords i 1 - entryD coords j 1) * (entryD coords i 1 - entryD coords j 1)

/-- Document frequency computed by `ScentEmbeddings.createEmbeddings` in
`scentEmbeddings.js`: the number of catalog items whose note list contains
the token (counted at item level, not occurrence level).  An item is a name
paired with its note list. -/
def documentFreq (oils : List (String × List String)) (note : String) : Nat :=
  (oils.filter fun o => note ∈ o.2).length

/-- One insertion into the vocabulary set of `buildVocabulary`
(`scentEmbeddings.js`): JavaScript Set insertion keeps the first occurrence
and preserves insertion order. -/
def insertNote (vocab : List String) (note : String) : List String :=
  if note ∈ vocab then vocab else vocab ++ [note]

/-- `buildVocabulary` from `scentEmbeddings.js`: all notes of all items,
inserted in catalog order. -/
def buildVocabulary (oils : List (String × List String)) : List String :=
  oils.foldl (fun v o => o.2.foldl insertNote v) []

/-- The embedding row of one item, from `ScentEmbeddings.createEmbeddings` in
`scentEmbeddings.js`: at each vocabulary index whose token the item contains,
the weight is (1 / note count of the item) times `Math.log` of (total item
count / document frequency of the token); other indices stay 0.  `Math.log`
is the explicit parameter `log`. -/
def createEmbedding {K : Type} [LinearOrderedField K] (log : K → K)
    (oils : List (String × List String)) (vocab : List String)
    (notes : List String) : List K :=
  vocab.map fun note =>
    if note ∈ notes then
      (1 / (notes.length : K)) *
        log ((oils.length : K) / (documentFreq oils note : K))
    else 0

/-- One iteration of the force-directed loop of
`FastAIDemo.generateEmbeddings` in `generateFastAIDemo.js`, specialised to a
catalog of two oils and acting on their coordinate pair: with a single
unordered pair, the force accumulated on each endpoint during the iteration
is the single pairwise term — the distance error times the learning rate
1/10, projected on each axis and divided by the floored distance — and both
points are moved synchronously at the end of the iteration. -/
def forceStep {K : Type} [LinearOrderedField K] (sqrt : K → K) (target : K)
    (p : (K × K) × (K × K)) : (K × K) × (K × K) :=
  let dx := p.1.1 - p.2.1
  let dy := p.1.2 - p.2.2
  let dist := flooredDistance (sqrt (dx * dx + dy * dy))
  let force := (dist - target) * (1/10)
  ((p.1.1 - force * dx / dist, p.1.2 - force * dy / dist),
   (p.2.1 + force * dx / dist, p.2.2 + force * dy / dist))

/-- The Euclidean distance currently realized between the two embedded
points. -/
def realizedDistance {K : Type} [LinearOrderedField K] (sqrt : K → K)
    (p : (K × K) × (K × K)) : K :=
  sqrt ((p.1.1 - p.2.1) * (p.1.1 - p.2.1) + (p.1.2 - p.2.2) * (p.1.2 - p.2.2))

theorem getSimilarityKey_comm (a b : String) :
    getSimilarityKey a b = getSimilarityKey b a := by
  unfold getSimilarityKey
  by_cases hab : a ≤ b
  · by_cases hba : b ≤ a
    · have h : a = b := le_antisymm hab hba
      subst h; rfl
    · simp [hab, hba]
  · have hba : b ≤ a := le_of_not_le hab
    simp [hab, hba]

theorem getD_map_range {α : Type} (f : Nat → α) (n i : Nat) (hi : i < n) (d : α) :
    (((List.range n).map f).getD i d) = f i := by
  rw [List.getD_eq_getElem?_getD]
  simp [List.getElem?_map, List.getElem?_range hi]

theorem createDistanceMatrix_entry (names : List String)
    (sim : String → Option SimEntry) (i j : Nat)
    (hi : i < names.length) (hj : j < names.length) :
    entryD (createDistanceMatrix names sim) i j = distanceEntry names sim i j := by
  unfold entryD createDistanceMatrix
  rw [getD_map_range _ _ _ hi, getD_map_range _ _ _ hj]

theorem simLookup_bounds (sim : String → Option SimEntry)
    (hb : ∀ k e, sim k = some e → 0 ≤ e.similarity ∧ e.similarity ≤ 100)
    (key : String) : 0 ≤ simLookup sim key ∧ simLookup sim key ≤ 100 := by
  unfold simLookup
  cases h : sim key with
  | none => norm_num
  | some e =>
    by_cases h0 : e.similarity = 0
    · simp [h0]; norm_num
    · have := hb key e h
      simp [h0]; exact this

theorem simLookup_of_none (sim : String → Option SimEntry) (key : String)
    (h : sim key = none) : simLookup sim key = 50 := by
  unfold simLookup
  rw [h]

theorem simLookup_of_zero (sim : String → Option SimEntry) (key : String)
    (e : SimEntry) (h : sim key = some e) (hz : e.similarity = 0) :
    simLookup sim key = 50 := by
  unfold simLookup
  rw [h]
  simp [hz]

theorem entry_of_absent (names : List String)
    (sim : String → Option SimEntry) (i j : Nat)
    (hi : i < names.length) (hj : j < names.length) (hij : i ≠ j)
    (habs : sim (getSimilarityKey (names.getD i "") (names.getD j "")) = none) :
    entryD (createDistanceMatrix names sim) i j = 1/2 := by
  rw [createDistanceMatrix_entry _ _ _ _ hi hj]
  unfold distanceEntry
  rw [if_neg hij, simLookup_of_none _ _ habs]
  norm_num

theorem entry_of_zero_score (names : List String)
    (sim : String → Option SimEntry) (i j : Nat) (e : SimEntry)
    (hi : i < names.length) (hj : j < names.length) (hij : i ≠ j)
    (hstored : sim (getSimilarityKey (names.getD i "") (names.getD j "")) = some e)
    (hzero : e.similarity = 0) :
    entryD (createDistanceMatrix names sim) i j = 1/2 := by
  rw [createDistanceMatrix_entry _ _ _ _ hi hj]
  unfold distanceEntry
  rw [if_neg hij, simLookup_of_zero _ _ _ hstored hzero]
  norm_num

/-- C1: for every similarity matrix whose stored scores lie within the
declared bounds 0 to 100, `createDistanceMatrix` returns an n by n matrix
that is symmetric, has every diagonal entry equal to 0, and has every entry
within the interval from 0 to 1. -/
theorem C1_distance_matrix_invariants (names : List String)
    (sim : String → Option SimEntry)
    (hb : ∀ k e, sim k = some e → 0 ≤ e.similarity ∧ e.similarity ≤ 100) :
    (createDistanceMatrix names sim).length = names.length ∧
    (∀ row ∈ createDistanceMatrix names sim, row.length = names.length) ∧
    (∀ i j, i < names.length → j < names.length →
      entryD (createDistanceMatrix names sim) i j =
        entryD (createDistanceMatrix names sim) j i) ∧
    (∀ i, i < names.length → entryD (createDistanceMatrix names sim) i i = 0) ∧
    (∀ i j, i < names.length → j < names.length →
      0 ≤ entryD (createDistanceMatrix names sim) i j ∧
        entryD (createDistanceMatrix names sim) i j ≤ 1) := by
  refine ⟨by simp [createDistanceMatrix], ?_, ?_, ?_, ?_⟩
  · intro row hrow
    unfold createDistanceMatrix at hrow
    simp only [List.mem_map, List.mem_range] at hrow
    obtain ⟨i, _, rfl⟩ := hrow
    simp
  · intro i j hi hj
    rw [createDistanceMatrix_entry _ _ _ _ hi hj,
      createDistanceMatrix_entry _ _ _ _ hj hi]
    unfold distanceEntry
    by_cases h : i = j
    · subst h; rfl
    · rw [if_neg h, if_neg (fun hji => h hji.symm), getSimilarityKey_comm]
  · intro i hi
    rw [createDistanceMatrix_entry _ _ _ _ hi hi]
    simp [distanceEntry]
  · intro i j hi hj
    rw [createDistanceMatrix_entry _ _ _ _ hi hj]
    unfold distanceEntry
    by_cases h : i = j
    · rw [if_pos h]; norm_num
    · rw [if_neg h]
      obtain ⟨h0, h100⟩ := simLookup_bounds sim hb
        (getSimilarityKey (names.getD i "") (names.getD j ""))
      constructor
      · exact div_nonneg (by linarith) (by norm_num)
      · rw [div_le_one (by norm_num)]; linarith

theorem C1_distance_matrix_invariants_witness :
    (∀ k e, (fun _ : String => some (SimEntry.mk "a" "b" 80 "" "")) k = some e →
      0 ≤ e.similarity ∧ e.similarity ≤ 100) ∧
    entryD (createDistanceMatrix ["a", "b"]
      (fun _ => some (SimEntry.mk "a" "b" 80 "" ""))) 0 1 =
      entryD (createDistanceMatrix ["a", "b"]
        (fun _ => some (SimEntry.mk "a" "b" 80 "" ""))) 1 0 := by
  have hb : ∀ k e, (fun _ : String => some (SimEntry.mk "a" "b" 80 "" "")) k = some e →
      0 ≤ e.similarity ∧ e.similarity ≤ 100 := by
    intro k e h
    simp only [Option.some.injEq] at h
    subst h
    exact ⟨by norm_num, by norm_num⟩
  exact ⟨hb, (C1_distance_matrix_invariants ["a", "b"] _ hb).2.2.1 0 1
    (by decide) (by decide)⟩

theorem aiNotesDistanceMatrix_entry (oils : List String)
    (similarities : String → Option ℚ) (i j : Nat)
    (hi : i < oils.length) (hj : j < oils.length) :
    entryD (aiNotesDistanceMatrix oils similarities) i j =
      1 - aiNotesSimLookup similarities (oils.getD i "" ++ "-" ++ oils.getD j "") := by
  unfold entryD aiNotesDistanceMatrix
  rw [getD_map_range _ _ _ hi, getD_map_range _ _ _ hj]

/-- C2 as stated is false: the distance-matrix builder of
`AINotesVisualization.generateEmbeddings`, cited by the claim, maps a pair
absent from the similarity matrix to distance 1 (the absent similarity is
read as 0 by the expression shown above), not to the neutral distance 1/2. -/
theorem C2_counterexample :
    entryD (aiNotesDistanceMatrix ["a", "b"] (fun _ => none)) 0 1 = 1 ∧
    entryD (aiNotesDistanceMatrix ["a", "b"] (fun _ => none)) 0 1 ≠ 1/2 := by
  have h : entryD (aiNotesDistanceMatrix ["a", "b"] (fun _ => none)) 0 1 = 1 := by
    rw [aiNotesDistanceMatrix_entry _ _ 0 1 (by decide) (by decide)]
    simp [aiNotesSimLookup]
  exact ⟨h, by rw [h]; norm_num⟩

/-- C2 amended: in `createDistanceMatrix` of `llmScentEmbeddings.js`, an
unordered pair absent from the similarity matrix is treated as the neutral
default 50 on the 0 to 100 scale, yielding distance 1/2 and never an error;
the builder of `AINotesVisualization.generateEmbeddings` instead reads an
absent pair as similarity 0, yielding distance 1. -/
theorem C2_absent_pair_neutral (names : List String)
    (sim : String → Option SimEntry) (i j : Nat)
    (hi : i < names.length) (hj : j < names.length) (hij : i ≠ j)
    (habs : sim (getSimilarityKey (names.getD i "") (names.getD j "")) = none) :
    entryD (createDistanceMatrix names sim) i j = 1/2 :=
  entry_of_absent names sim i j hi hj hij habs

theorem C2_absent_pair_neutral_witness :
    (fun _ : String => (none : Option SimEntry)) "a|b" = none ∧
    entryD (createDistanceMatrix ["a", "b"] (fun _ => none)) 0 1 = 1/2 :=
  ⟨rfl, C2_absent_pair_neutral ["a", "b"] (fun _ => none) 0 1 (by decide) (by decide)
    (by decide) rfl⟩

/-- C10: in `createDistanceMatrix`, a pair whose stored similarity score is
exactly 0 is indistinguishable from an absent pair: the falsy score is
replaced by the neutral default 50, so the distance is 1/2 rather than the
maximal distance 1, and the entry agrees with the one produced by any
similarity matrix in which the pair is absent. -/
theorem C10_zero_score_like_absent (names : List String)
    (sim : String → Option SimEntry) (i j : Nat) (e : SimEntry)
    (hi : i < names.length) (hj : j < names.length) (hij : i ≠ j)
    (hstored : sim (getSimilarityKey (names.getD i "") (names.getD j "")) = some e)
    (hzero : e.similarity = 0) :
    entryD (createDistanceMatrix names sim) i j = 1/2 ∧
    entryD (createDistanceMatrix names sim) i j ≠ 1 ∧
    (∀ sim' : String → Option SimEntry,
      sim' (getSimilarityKey (names.getD i "") (names.getD j "")) = none →
      entryD (createDistanceMatrix names sim') i j =
        entryD (createDistanceMatrix names sim) i j) := by
  have h := entry_of_zero_score names sim i j e hi hj hij hstored hzero
  refine ⟨h, by rw [h]; norm_num, ?_⟩
  intro sim' habs
  rw [h, entry_of_absent names sim' i j hi hj hij habs]

theorem C10_zero_score_like_absent_witness :
    (fun _ : String => some (SimEntry.mk "a" "b" 0 "" "")) "a|b" =
      some (SimEntry.mk "a" "b" 0 "" "") ∧
    entryD (createDistanceMatrix ["a", "b"]
      (fun _ => some (SimEntry.mk "a" "b" 0 "" ""))) 0 1 = 1/2 :=
  ⟨rfl, (C10_zero_score_like_absent ["a", "b"] _ 0 1 (SimEntry.mk "a" "b" 0 "" "")
    (by decide) (by decide) (by decide) rfl rfl).1⟩

theorem getD_map_of_lt {α β : Type} (f : α → β) (l : List α) (i : Nat)
    (d : α) (d' : β) (hi : i < l.length) :
    (l.map f).getD i d' = f (l.getD i d) := by
  rw [List.getD_eq_getElem?_getD, List.getElem?_map, List.getElem?_eq_getElem hi,
    List.getD_eq_getElem?_getD, List.getElem?_eq_getElem hi]
  rfl

theorem list_sum_eq_range_sum (l : List ℚ) :
    l.sum = ∑ k ∈ Finset.range l.length, l.getD k 0 := by
  induction l with
  | nil => simp
  | cons a t ih =>
    rw [List.sum_cons, List.length_cons, Finset.sum_range_succ']
    simp [List.getD_cons_succ, List.getD_cons_zero, ih, add_comm]

theorem centerDistanceMatrix_entry (d : List (List ℚ)) (i j : Nat)
    (hi : i < d.length) (hj : j < d.length) :
    entryD (centerDistanceMatrix d) i j =
      (d.getD i []).getD j 0 - (rowMeansJS d).getD i 0 -
        (colMeansJS d).getD j 0 + grandMeanJS d := by
  unfold entryD centerDistanceMatrix
  rw [getD_map_range _ _ _ hi, getD_map_range _ _ _ hj]

theorem specDoubleCenteredB_entry (d : List (List ℚ)) (i j : Nat)
    (hi : i < d.length) (hj : j < d.length) :
    entryD (specDoubleCenteredB d) i j =
      (-(1/2)) * (((d.map fun row => row.map fun x => x * x).getD i []).getD j 0 -
        (rowMeansJS (d.map fun row => row.map fun x => x * x)).getD i 0 -
        (colMeansJS (d.map fun row => row.map fun x => x * x)).getD j 0 +
        grandMeanJS (d.map fun row => row.map fun x => x * x)) := by
  unfold entryD specDoubleCenteredB
  rw [getD_map_range _ _ _ hi, getD_map_range _ _ _ hj]

/-- C3 as stated is false: on the distance matrix [[0,1],[1,0]], the centering
step `centerDistanceMatrix` that feeds `eigenDecomposition` produces entry
(0,0) equal to -1/2, while the squared double-centered matrix with the -1/2
factor described by the claim has entry (0,0) equal to 1/4; the two matrices
differ. -/
theorem C3_counterexample :
    entryD (centerDistanceMatrix [[0, 1], [1, 0]]) 0 0 = -(1/2) ∧
    entryD (specDoubleCenteredB [[0, 1], [1, 0]]) 0 0 = 1/4 ∧
    centerDistanceMatrix [[0, 1], [1, 0]] ≠ specDoubleCenteredB [[0, 1], [1, 0]] := by
  have h2 : (([[0, 1], [1, 0]] : List (List ℚ))).length = 2 := rfl
  have ha : entryD (centerDistanceMatrix [[0, 1], [1, 0]]) 0 0 = -(1/2) := by
    rw [centerDistanceMatrix_entry _ 0 0 (by norm_num) (by norm_num)]
    norm_num [rowMeansJS, colMeansJS, grandMeanJS, List.range_succ]
  have hb : entryD (specDoubleCenteredB [[0, 1], [1, 0]]) 0 0 = 1/4 := by
    rw [specDoubleCenteredB_entry _ 0 0 (by norm_num) (by norm_num)]
    norm_num [rowMeansJS, colMeansJS, grandMeanJS, List.range_succ]
  refine ⟨ha, hb, fun h => ?_⟩
  have := congrArg (fun m => entryD m 0 0) h
  simp only at this
  rw [ha, hb] at this
  norm_num at this

/-- C3 amended: the centering step `centerDistanceMatrix` hands the
eigen-extraction step the double-centered RAW distance matrix, without
squaring the entries and without the factor of minus one half:
entry (i,j) equals D i j minus the row mean of row i, minus the column mean
of column j, plus the grand mean, all computed on D itself. -/
theorem C3_centering_raw_double_center (d : List (List ℚ)) (n : Nat)
    (hn : d.length = n) (hrows : ∀ row ∈ d, row.length = n)
    (i j : Nat) (hi : i < n) (hj : j < n) :
    entryD (centerDistanceMatrix d) i j =
      entryD d i j - (∑ k ∈ Finset.range n, entryD d i k) / n -
        (∑ k ∈ Finset.range n, entryD d k j) / n +
        (∑ k ∈ Finset.range n, ∑ l ∈ Finset.range n, entryD d k l) / (n * n) := by
  subst hn
  have hgetmem : ∀ k, k < d.length → d.getD k [] ∈ d := by
    intro k hk
    rw [List.getD_eq_getElem?_getD, List.getElem?_eq_getElem hk]
    exact List.getElem_mem hk
  have hrowlen : (d.getD i []).length = d.length := hrows _ (hgetmem i hi)
  have hrow : (rowMeansJS d).getD i 0 =
      (∑ k ∈ Finset.range d.length, entryD d i k) / d.length := by
    unfold rowMeansJS
    rw [getD_map_of_lt _ d i [] 0 hi, list_sum_eq_range_sum, hrowlen]
    rfl
  have hcol : (colMeansJS d).getD j 0 =
      (∑ k ∈ Finset.range d.length, entryD d k j) / d.length := by
    unfold colMeansJS
    rw [getD_map_range _ _ _ hj, list_sum_eq_range_sum, List.length_map]
    congr 1
    refine Finset.sum_congr rfl fun k hk => ?_
    rw [getD_map_of_lt _ d k [] 0 (Finset.mem_range.mp hk)]
    rfl
  have hgrand : grandMeanJS d =
      (∑ k ∈ Finset.range d.length, ∑ l ∈ Finset.range d.length, entryD d k l) /
        (d.length * d.length) := by
    unfold grandMeanJS rowMeansJS
    rw [list_sum_eq_range_sum, List.length_map]
    have hterm : ∀ k ∈ Finset.range d.length,
        (List.map (fun row => row.sum / (d.length : ℚ)) d).getD k 0 =
          (∑ l ∈ Finset.range d.length, entryD d k l) / (d.length : ℚ) := by
      intro k hk
      rw [getD_map_of_lt _ d k [] 0 (Finset.mem_range.mp hk), list_sum_eq_range_sum,
        hrows _ (hgetmem k (Finset.mem_range.mp hk))]
      rfl
    rw [Finset.sum_congr rfl hterm, ← Finset.sum_div, div_div]
  rw [centerDistanceMatrix_entry d i j hi hj, hrow, hcol, hgrand]
  rfl

theorem C3_centering_raw_double_center_witness :
    (([[0, 1], [1, 0]] : List (List ℚ)).length = 2) ∧
    entryD (centerDistanceMatrix [[0, 1], [1, 0]]) 0 1 =
      entryD [[0, 1], [1, 0]] 0 1 -
        (∑ k ∈ Finset.range 2, entryD [[0, 1], [1, 0]] 0 k) / (2 : ℕ) -
        (∑ k ∈ Finset.range 2, entryD [[0, 1], [1, 0]] k 1) / (2 : ℕ) +
        (∑ k ∈ Finset.range 2, ∑ l ∈ Finset.range 2, entryD [[0, 1], [1, 0]] k l) /
          ((2 : ℕ) * (2 : ℕ)) :=
  ⟨rfl, C3_centering_raw_double_center [[0, 1], [1, 0]] 2 rfl
    (by intro row hrow; simp only [List.mem_cons, List.not_mem_nil, or_false] at hrow
        rcases hrow with rfl | rfl <;> rfl)
    0 1 (by norm_num) (by norm_num)⟩

theorem stepPair_preserves (oracle : String → String → Option SimEntry)
    (cat : String → String) (ts : String) (m : String → Option SimEntry)
    (p : String × String) (k : String) (v : SimEntry) (h : m k = some v) :
    stepPair oracle cat ts m p k = some v := by
  unfold stepPair
  cases hm : m (getSimilarityKey p.1 p.2) with
  | some e => exact h
  | none =>
    cases ho : oracle p.1 p.2 with
    | some e =>
      by_cases hk : k = getSimilarityKey p.1 p.2
      · subst hk; rw [hm] at h; cases h
      · simp only [hk, if_false, h]
    | none =>
      by_cases hk : k = getSimilarityKey p.1 p.2
      · subst hk; rw [hm] at h; cases h
      · simp only [hk, if_false, h]

theorem foldl_preserves (oracle : String → String → Option SimEntry)
    (cat : String → String) (ts : String) (l : List (String × String))
    (m : String → Option SimEntry) (k : String) (v : SimEntry)
    (h : m k = some v) : l.foldl (stepPair oracle cat ts) m k = some v := by
  induction l generalizing m with
  | nil => exact h
  | cons p t ih => exact ih _ (stepPair_preserves _ _ _ _ _ _ _ h)

theorem stepPair_other (oracle : String → String → Option SimEntry)
    (cat : String → String) (ts : String) (m : String → Option SimEntry)
    (p : String × String) (k : String) (hk : k ≠ getSimilarityKey p.1 p.2) :
    stepPair oracle cat ts m p k = m k := by
  unfold stepPair
  cases hm : m (getSimilarityKey p.1 p.2) with
  | some e => rfl
  | none =>
    cases ho : oracle p.1 p.2 with
    | some e => simp only [hk, if_false]
    | none => simp only [hk, if_false]

theorem stepPair_self_isSome (oracle : String → String → Option SimEntry)
    (cat : String → String) (ts : String) (m : String → Option SimEntry)
    (p : String × String) :
    stepPair oracle cat ts m p (getSimilarityKey p.1 p.2) ≠ none := by
  unfold stepPair
  cases hm : m (getSimilarityKey p.1 p.2) with
  | some e => simp [hm]
  | none =>
    cases ho : oracle p.1 p.2 with
    | some e => simp
    | none => simp

theorem stepPair_fallback (oracle : String → String → Option SimEntry)
    (cat : String → String) (ts : String) (m : String → Option SimEntry)
    (p : String × String) (hm : m (getSimilarityKey p.1 p.2) = none)
    (ho : oracle p.1 p.2 = none) :
    stepPair oracle cat ts m p (getSimilarityKey p.1 p.2) =
      some (fallbackEntry cat ts p.1 p.2) := by
  unfold stepPair
  rw [hm, ho]
  simp

theorem foldl_fallback (oracle : String → String → Option SimEntry)
    (cat : String → String) (ts : String) (l : List (String × String))
    (m : String → Option SimEntry) (a b : String)
    (hmem : (a, b) ∈ l) (hm : m (getSimilarityKey a b) = none)
    (ho : oracle a b = none)
    (huniq : ∀ p ∈ l, getSimilarityKey p.1 p.2 = getSimilarityKey a b → p = (a, b)) :
    l.foldl (stepPair oracle cat ts) m (getSimilarityKey a b) =
      some (fallbackEntry cat ts a b) := by
  induction l generalizing m with
  | nil => cases hmem
  | cons p t ih =>
    rw [List.foldl_cons]
    by_cases hp : p = (a, b)
    · subst hp
      exact foldl_preserves _ _ _ t _ _ _ (stepPair_fallback _ _ _ _ _ hm ho)
    · have hne : getSimilarityKey a b ≠ getSimilarityKey p.1 p.2 := fun h =>
        hp (huniq p (List.mem_cons_self p t) h.symm)
      have hstep : stepPair oracle cat ts m p (getSimilarityKey a b) = none := by
        rw [stepPair_other _ _ _ _ _ _ hne]; exact hm
      have hmem' : (a, b) ∈ t := by
        rcases List.mem_cons.mp hmem with h | h
        · exact absurd h.symm hp
        · exact h
      exact ih _ hmem' hstep (fun q hq => huniq q (List.mem_cons_of_mem _ hq))

theorem foldl_populates (oracle : String → String → Option SimEntry)
    (cat : String → String) (ts : String) (l : List (String × String))
    (m : String → Option SimEntry) :
    ∀ p ∈ l, l.foldl (stepPair oracle cat ts) m (getSimilarityKey p.1 p.2) ≠ none := by
  induction l generalizing m with
  | nil => intro p hp; cases hp
  | cons q t ih =>
    intro p hp
    rw [List.foldl_cons]
    rcases List.mem_cons.mp hp with rfl | hp'
    · cases hv : stepPair oracle cat ts m p (getSimilarityKey p.1 p.2) with
      | none => exact absurd hv (stepPair_self_isSome _ _ _ _ _)
      | some v => rw [foldl_preserves oracle cat ts t _ _ v hv]; simp
    · exact ih _ p hp'

/-- C4 as stated is false for `FastAIDemo.getFallbackSimilarity`, one of the
fallbacks the claim cites: for the different-category pair lavender and
bergamot, the fallback similarity is 31/120, a weighted combination of
category match, intensity closeness and note overlap, not the fixed value
0.3 (and not 0.6). -/
theorem C4_counterexample :
    (essentialOils "lavender").map OilData.category ≠
      (essentialOils "bergamot").map OilData.category ∧
    getFallbackSimilarity "lavender" "bergamot" = 31/120 ∧
    getFallbackSimilarity "lavender" "bergamot" ≠ 3/10 ∧
    getFallbackSimilarity "lavender" "bergamot" ≠ 3/5 := by
  have h : getFallbackSimilarity "lavender" "bergamot" = 31/120 := by
    have h0 : getFallbackSimilarity "lavender" "bergamot" =
        max 0 (min 1 (0 + (4 - |(2 : ℚ) - 1|) / 4 * (3/10) +
          (((1 : ℕ) : ℚ) / ((9 : ℕ) : ℚ)) * (3/10))) := rfl
    rw [h0]
    rw [show (0 + (4 - |(2:ℚ) - 1|) / 4 * (3/10) +
        (((1:ℕ):ℚ) / ((9:ℕ):ℚ)) * (3/10)) = 31/120 by norm_num]
    rw [min_eq_right (by norm_num : (31/120:ℚ) ≤ 1),
      max_eq_right (by norm_num : (0:ℚ) ≤ 31/120)]
  have hcat : (essentialOils "lavender").map OilData.category ≠
      (essentialOils "bergamot").map OilData.category := by
    intro hc
    have : some "floral" = some "citrus" := hc
    simp at this
  exact ⟨hcat, h, by rw [h]; norm_num, by rw [h]; norm_num⟩

/-- C4 amended: in `generateSimilarityMatrix` of `llmScentEmbeddings.js`, when
the oracle call for an uncached pair fails, the run does not abort and the
stored similarity for the pair equals the deterministic category fallback of
that module: 60 of 100 when the two oils share a category and 30 of 100 when
they do not; moreover every visited pair ends up with a stored record
regardless of oracle outcomes.  `FastAIDemo` uses a different fallback: a
weighted category, intensity and note-overlap heuristic. -/
theorem C4_fallback_similarity (oracle : String → String → Option SimEntry)
    (cat : String → String) (ts : String) (names : List String)
    (init : String → Option SimEntry) (a b : String)
    (hmem : (a, b) ∈ allPairs names)
    (hinit : init (getSimilarityKey a b) = none)
    (ho : oracle a b = none)
    (huniq : ∀ p ∈ allPairs names,
      getSimilarityKey p.1 p.2 = getSimilarityKey a b → p = (a, b)) :
    generateSimilarityMatrix oracle cat ts names init (getSimilarityKey a b) =
      some (fallbackEntry cat ts a b) ∧
    (fallbackEntry cat ts a b).similarity = (if cat a = cat b then 60 else 30) ∧
    (∀ p ∈ allPairs names,
      generateSimilarityMatrix oracle cat ts names init (getSimilarityKey p.1 p.2) ≠
        none) :=
  ⟨foldl_fallback oracle cat ts (allPairs names) init a b hmem hinit ho huniq,
    rfl,
    foldl_populates oracle cat ts (allPairs names) init⟩

theorem C4_fallback_similarity_witness :
    ((fun _ _ : String => (none : Option SimEntry)) "a" "b" = none) ∧
    generateSimilarityMatrix (fun _ _ => none) (fun _ => "x") "t" ["a", "b"]
      (fun _ => none) (getSimilarityKey "a" "b") =
      some (fallbackEntry (fun _ => "x") "t" "a" "b") := by
  have hmem : ("a", "b") ∈ allPairs ["a", "b"] := by
    simp [allPairs]
  have huniq : ∀ p ∈ allPairs ["a", "b"],
      getSimilarityKey p.1 p.2 = getSimilarityKey "a" "b" → p = ("a", "b") := by
    intro p hp _
    simpa [allPairs] using hp
  exact ⟨rfl, (C4_fallback_similarity (fun _ _ => none) (fun _ => "x") "t"
    ["a", "b"] (fun _ => none) "a" "b" hmem rfl rfl huniq).1⟩

/-- C6: the cache key of a pair is canonical — `getSimilarityKey a b` equals
`getSimilarityKey b a` (the sorted pair joined with the fixed separator) —
so looking up (a,b) and (b,a) always yields the same value; and saving the
matrix and loading it into a fresh instance returns the same value for the
same canonical key. -/
theorem C6_cache_key_and_round_trip (m prior : String → Option SimEntry)
    (ts : String) (count : Nat) (a b : String) :
    getSimilarityKey a b = getSimilarityKey b a ∧
    loadCache prior (some (saveCache m ts count)) (getSimilarityKey a b) =
      m (getSimilarityKey a b) ∧
    loadCache prior (some (saveCache m ts count)) (getSimilarityKey a b) =
      loadCache prior (some (saveCache m ts count)) (getSimilarityKey b a) := by
  refine ⟨getSimilarityKey_comm a b, rfl, ?_⟩
  rw [getSimilarityKey_comm]

/-- C5 as stated is false on the classical-MDS power-iteration path: on the
all-zero 2 by 2 distance matrix the centered matrix is all-zero, the first
power-iteration multiplication yields the zero vector whatever the random
start vector (here 1/2 and -1/3), its squared norm is 0, hence the divisor
`Math.sqrt(0) = 0`: `eigenDecomposition` divides by zero and fills the
vector with NaN instead of producing a valid finite embedding. -/
theorem C5_counterexample :
    centerDistanceMatrix [[0, 0], [0, 0]] = [[0, 0], [0, 0]] ∧
    powerIterNormSq (centerDistanceMatrix [[0, 0], [0, 0]]) [1/2, -1/3] = 0 := by
  have hc : centerDistanceMatrix [[0, 0], [0, 0]] = [[0, 0], [0, 0]] := by
    norm_num [centerDistanceMatrix, rowMeansJS, colMeansJS, grandMeanJS,
      List.range_succ]
  have hm : matrixVectorMultiply [[0, 0], [0, 0]] [1/2, -1/3] = [0, 0] := by
    norm_num [matrixVectorMultiply, dotProduct, List.range_succ]
  refine ⟨hc, ?_⟩
  unfold powerIterNormSq
  rw [hc, hm]
  norm_num

/-- C5 amended: the epsilon floor exists only on the force-directed path:
there, the divisor obtained from `Math.sqrt(dx*dx + dy*dy) || 0.001` is
always strictly positive, for every pair of current coordinates; the
classical-MDS power-iteration path has no floor and divides by zero on an
all-zero distance matrix. -/
theorem C5_force_divisor_positive (sqrt : ℚ → ℚ)
    (hnn : ∀ x, 0 ≤ x → 0 ≤ sqrt x) (dx dy : ℚ) :
    0 < flooredDistance (sqrt (dx * dx + dy * dy)) := by
  have h0 : 0 ≤ sqrt (dx * dx + dy * dy) :=
    hnn _ (add_nonneg (mul_self_nonneg dx) (mul_self_nonneg dy))
  unfold flooredDistance
  by_cases h : sqrt (dx * dx + dy * dy) = 0
  · rw [if_pos h]; norm_num
  · rw [if_neg h]; exact lt_of_le_of_ne h0 (Ne.symm h)

theorem C5_force_divisor_positive_witness :
    (∀ x : ℚ, 0 ≤ x → 0 ≤ (fun y : ℚ => if y ≤ 0 then 0 else y) x) ∧
    0 < flooredDistance ((fun y : ℚ => if y ≤ 0 then 0 else y) ((0:ℚ) * 0 + 0 * 0)) := by
  have hnn : ∀ x : ℚ, 0 ≤ x → 0 ≤ (fun y : ℚ => if y ≤ 0 then 0 else y) x := by
    intro x hx
    by_cases h : x ≤ 0
    · simp [h]
    · simp [h]; linarith
  exact ⟨hnn, C5_force_divisor_positive (fun y => if y ≤ 0 then 0 else y) hnn 0 0⟩

/-- C9: the classical-MDS reducer is deterministic and reproducible: the only
randomness in `performMDS` is the pair of initial vectors drawn from
`Math.random()` (the source has no seed parameter, so a fixed seed is
modelled as fixing that draw sequence), and two runs on the same distance
matrix with the same draws produce identical coordinate lists — in
particular every pairwise coordinate distance, and hence every distance
ratio, is preserved exactly between the two runs. -/
theorem C9_mds_deterministic (sqrt : ℚ → ℚ) (distances : List (List ℚ))
    (init1 init2 init1' init2' : List ℚ)
    (h1 : init1 = init1') (h2 : init2 = init2') :
    performMDS sqrt distances init1 init2 = performMDS sqrt distances init1' init2' ∧
    ∀ i j, coordDistSq (performMDS sqrt distances init1 init2) i j =
      coordDistSq (performMDS sqrt distances init1' init2') i j := by
  subst h1
  subst h2
  exact ⟨rfl, fun i j => rfl⟩

theorem C9_mds_deterministic_witness :
    performMDS (fun x => x) [[0, 1], [1, 0]] [1, 0] [0, 1] =
      performMDS (fun x => x) [[0, 1], [1, 0]] [1, 0] [0, 1] ∧
    coordDistSq (performMDS (fun x => x) [[0, 1], [1, 0]] [1, 0] [0, 1]) 0 1 =
      coordDistSq (performMDS (fun x => x) [[0, 1], [1, 0]] [1, 0] [0, 1]) 0 1 :=
  ⟨(C9_mds_deterministic (fun x => x) [[0, 1], [1, 0]] [1, 0] [0, 1] [1, 0] [0, 1]
      rfl rfl).1,
    (C9_mds_deterministic (fun x => x) [[0, 1], [1, 0]] [1, 0] [0, 1] [1, 0] [0, 1]
      rfl rfl).2 0 1⟩

/-- C7 as stated is false for a single-item catalog: in the catalog with the
one item named solo carrying the single note x, the token x is contained in
exactly one item (document frequency 1), yet its weight for that item is
(1/1) times log(1/1) = 0, not strictly positive, because with one item a
token unique to one item also appears in every item. -/
theorem C7_counterexample :
    documentFreq [("solo", ["x"])] "x" = 1 ∧
    ([("solo", ["x"])] : List (String × List String)).length = 1 ∧
    (createEmbedding Real.log [("solo", ["x"])]
      (buildVocabulary [("solo", ["x"])]) ["x"]).getD 0 0 = 0 := by
  refine ⟨rfl, rfl, ?_⟩
  have hv : buildVocabulary [("solo", ["x"])] = ["x"] := rfl
  rw [hv]
  have h : (createEmbedding Real.log [("solo", ["x"])] ["x"] ["x"]).getD 0 0 =
      (1 / ((1 : ℕ) : ℝ)) * Real.log (((1 : ℕ) : ℝ) / ((1 : ℕ) : ℝ)) := by
    unfold createEmbedding
    simp [documentFreq]
  rw [h]
  norm_num

/-- C7 amended: for every catalog, vocabulary and item of the catalog, the
vectorizer assigns at a vocabulary index the weight (1 / note count) times
log(total item count / document frequency) when the item contains the token
and 0 otherwise; a token contained in every item gets weight 0 for every
item, and — provided the catalog has at least two items — a token contained
in exactly one item gets strictly positive weight for that item and 0 for
all items not containing it.  The parameter `log` is constrained by the sign
laws of the real logarithm satisfied by `Math.log`. -/
theorem C7_tfidf_weights {K : Type} [LinearOrderedField K] (log : K → K)
    (hlog1 : log 1 = 0) (hlogpos : ∀ x : K, 1 < x → 0 < log x)
    (oils : List (String × List String)) (vocab : List String)
    (name : String) (notes : List String) (idx : Nat)
    (hmem : (name, notes) ∈ oils) (hidx : idx < vocab.length) :
    ((createEmbedding log oils vocab notes).getD idx 0 =
      if vocab.getD idx "" ∈ notes then
        (1 / (notes.length : K)) *
          log ((oils.length : K) / (documentFreq oils (vocab.getD idx "") : K))
      else 0) ∧
    (documentFreq oils (vocab.getD idx "") = oils.length →
      vocab.getD idx "" ∈ notes →
      (createEmbedding log oils vocab notes).getD idx 0 = 0) ∧
    (documentFreq oils (vocab.getD idx "") = 1 → 2 ≤ oils.length →
      vocab.getD idx "" ∈ notes →
      0 < (createEmbedding log oils vocab notes).getD idx 0) ∧
    (vocab.getD idx "" ∉ notes →
      (createEmbedding log oils vocab notes).getD idx 0 = 0) := by
  have hentry : (createEmbedding log oils vocab notes).getD idx 0 =
      if vocab.getD idx "" ∈ notes then
        (1 / (notes.length : K)) *
          log ((oils.length : K) / (documentFreq oils (vocab.getD idx "") : K))
      else 0 := by
    unfold createEmbedding
    rw [getD_map_of_lt _ vocab idx "" 0 hidx]
  have hoils_pos : 0 < oils.length := List.length_pos.mpr (by
    intro hnil
    rw [hnil] at hmem
    cases hmem)
  refine ⟨hentry, ?_, ?_, ?_⟩
  · intro hall hin
    rw [hentry, if_pos hin, hall]
    have hne : ((oils.length : K)) ≠ 0 := by
      exact_mod_cast Nat.pos_iff_ne_zero.mp hoils_pos
    rw [div_self hne, hlog1, mul_zero]
  · intro hone htwo hin
    rw [hentry, if_pos hin]
    have hnotes_pos : 0 < notes.length := List.length_pos.mpr (by
      intro hnil
      rw [hnil] at hin
      cases hin)
    have htf : 0 < 1 / (notes.length : K) := by
      apply div_pos one_pos
      exact_mod_cast hnotes_pos
    have hidf : 0 < log ((oils.length : K) / (documentFreq oils (vocab.getD idx "") : K)) := by
      apply hlogpos
      rw [hone]
      push_cast
      rw [div_one]
      exact_mod_cast htwo
    exact mul_pos htf hidf
  · intro hout
    rw [hentry, if_neg hout]

theorem C7_tfidf_weights_witness :
    ((fun x : ℚ => x - 1) 1 = 0) ∧
    documentFreq [("a", ["s", "u"]), ("b", ["s", "w"])] "u" = 1 ∧
    0 < (createEmbedding (fun x : ℚ => x - 1) [("a", ["s", "u"]), ("b", ["s", "w"])]
      ["s", "u", "w"] ["s", "u"]).getD 1 0 := by
  have hlog1 : (fun x : ℚ => x - 1) 1 = 0 := by norm_num
  have hlogpos : ∀ x : ℚ, 1 < x → 0 < (fun y : ℚ => y - 1) x := by
    intro x hx
    simpa using sub_pos.mpr hx
  refine ⟨hlog1, rfl, ?_⟩
  exact (C7_tfidf_weights (fun x : ℚ => x - 1) hlog1 hlogpos
    [("a", ["s", "u"]), ("b", ["s", "w"])] ["s", "u", "w"] "a" ["s", "u"] 1
    (by simp) (by norm_num)).2.2.1 rfl (by norm_num) (by simp)

theorem forceStep_distance {K : Type} [LinearOrderedField K] (sqrt : K → K)
    (hsq : ∀ c a : K, sqrt (c ^ 2 * a) = |c| * sqrt a)
    (target : K) (p : (K × K) × (K × K))
    (ht : 0 ≤ target) (hd : 0 < realizedDistance sqrt p) :
    realizedDistance sqrt (forceStep sqrt target p) =
      (4/5) * realizedDistance sqrt p + (1/5) * target := by
  obtain ⟨⟨a, b⟩, ⟨c, e⟩⟩ := p
  have hd' : 0 < sqrt ((a - c) * (a - c) + (b - e) * (b - e)) := hd
  set r := sqrt ((a - c) * (a - c) + (b - e) * (b - e)) with hr
  have hrne : r ≠ 0 := ne_of_gt hd'
  have hfloor : flooredDistance r = r := if_neg hrne
  have hstep : forceStep sqrt target ((a, b), (c, e)) =
      ((a - (r - target) * (1/10) * (a - c) / r,
        b - (r - target) * (1/10) * (b - e) / r),
       (c + (r - target) * (1/10) * (a - c) / r,
        e + (r - target) * (1/10) * (b - e) / r)) := by
    simp only [forceStep, ← hr, hfloor]
  rw [hstep]
  show sqrt _ = _
  have hXY : (a - (r - target) * (1/10) * (a - c) / r -
        (c + (r - target) * (1/10) * (a - c) / r)) *
      (a - (r - target) * (1/10) * (a - c) / r -
        (c + (r - target) * (1/10) * (a - c) / r)) +
      (b - (r - target) * (1/10) * (b - e) / r -
        (e + (r - target) * (1/10) * (b - e) / r)) *
      (b - (r - target) * (1/10) * (b - e) / r -
        (e + (r - target) * (1/10) * (b - e) / r)) =
      ((4 * r + target) / (5 * r)) ^ 2 * ((a - c) * (a - c) + (b - e) * (b - e)) := by
    field_simp
    ring
  rw [hXY, hsq, ← hr]
  have hk : 0 < (4 * r + target) / (5 * r) :=
    div_pos (by linarith) (by linarith)
  rw [abs_of_pos hk]
  have hreal : realizedDistance sqrt ((a, b), (c, e)) = r := hr.symm
  rw [hreal]
  field_simp
  ring

theorem forceIter_error {K : Type} [LinearOrderedField K] (sqrt : K → K)
    (hsq : ∀ c a : K, sqrt (c ^ 2 * a) = |c| * sqrt a)
    (target : K) (p : (K × K) × (K × K))
    (ht : 0 ≤ target) (hd : 0 < realizedDistance sqrt p) (n : Nat) :
    0 < realizedDistance sqrt ((forceStep sqrt target)^[n] p) ∧
    realizedDistance sqrt ((forceStep sqrt target)^[n] p) - target =
      (4/5)^n * (realizedDistance sqrt p - target) := by
  induction n with
  | zero => simpa using hd
  | succ n ih =>
    obtain ⟨hpos, herr⟩ := ih
    rw [Function.iterate_succ_apply']
    have hstep := forceStep_distance sqrt hsq target _ ht hpos
    constructor
    · have h1 : 0 < (4/5 : K) * realizedDistance sqrt ((forceStep sqrt target)^[n] p) :=
        mul_pos (by norm_num) hpos
      have h2 : 0 ≤ (1/5 : K) * target := mul_nonneg (by norm_num) ht
      rw [hstep]
      linarith
    · rw [hstep, pow_succ]
      have hlin : (4/5 : K) * realizedDistance sqrt ((forceStep sqrt target)^[n] p) +
          (1/5) * target - target =
          (4/5) * (realizedDistance sqrt ((forceStep sqrt target)^[n] p) - target) := by
        ring
      rw [hlin, herr]
      ring

/-- C8 as stated is false for coincident initial positions: when the two
points start at the same position, the axis projections dx and dy are zero,
so (even though the divisor is floored to 1/1000) every accumulated force
component is zero and the points never separate; after 200 iterations at
target distance 1 the realized distance is still 0, which is not within 1/20
of 1. -/
theorem C8_counterexample :
    realizedDistance Real.sqrt
      ((forceStep Real.sqrt 1)^[200] (((0 : ℝ), 0), (0, 0))) = 0 ∧
    ¬ (|realizedDistance Real.sqrt
        ((forceStep Real.sqrt 1)^[200] (((0 : ℝ), 0), (0, 0))) - 1| ≤ 1/20) := by
  have hone : forceStep Real.sqrt (1 : ℝ) ((0, 0), (0, 0)) = ((0, 0), (0, 0)) := by
    simp only [forceStep]
    norm_num
  have hfix : (forceStep Real.sqrt (1 : ℝ))^[200] (((0 : ℝ), 0), (0, 0)) =
      (((0 : ℝ), 0), (0, 0)) :=
    Function.iterate_fixed hone 200
  have h : realizedDistance Real.sqrt (((0 : ℝ), 0), (0, 0)) = 0 := by
    show Real.sqrt _ = 0
    norm_num
  rw [hfix, h]
  constructor
  · rfl
  · rw [show |(0 : ℝ) - 1| = 1 by rw [abs_of_nonpos (by norm_num)]; norm_num]
    norm_num

/-- C8 amended: for a 2-item input with target distance d between 0 and 1 and
any DISTINCT initial positions whose initial distance error is at most 4
(this covers the random initialization range of the source, where both
coordinates lie in the square from -1 to 1), after the fixed 200 iterations
with learning rate 1/10 and synchronous per-iteration force accumulation the
realized Euclidean distance between the two points is within 1/20 of d;
coincident initial positions, however, never separate.  The square-root
parameter is constrained by the algebraic laws of the real square root. -/
theorem C8_two_point_convergence {K : Type} [LinearOrderedField K] (sqrt : K → K)
    (hsq : ∀ c a : K, sqrt (c ^ 2 * a) = |c| * sqrt a)
    (target : K) (p : (K × K) × (K × K))
    (ht0 : 0 ≤ target) (ht1 : target ≤ 1)
    (hd : 0 < realizedDistance sqrt p)
    (hb : |realizedDistance sqrt p - target| ≤ 4) :
    |realizedDistance sqrt ((forceStep sqrt target)^[200] p) - target| ≤ 1/20 := by
  obtain ⟨-, herr⟩ := forceIter_error sqrt hsq target p ht0 hd 200
  rw [herr, abs_mul, abs_pow]
  rw [show |(4/5 : K)| = 4/5 from abs_of_pos (by norm_num)]
  have hmul : (4/5 : K)^200 * |realizedDistance sqrt p - target| ≤
      (4/5 : K)^200 * 4 :=
    mul_le_mul_of_nonneg_left hb (by positivity)
  have hpow : ((4/5 : K))^200 * 4 ≤ 1/20 := by
    norm_num
  linarith

theorem C8_two_point_convergence_witness :
    0 < realizedDistance Real.sqrt (((0 : ℝ), 0), (1, 0)) ∧
    |realizedDistance Real.sqrt
        ((forceStep Real.sqrt (1/2))^[200] (((0 : ℝ), 0), (1, 0))) - 1/2| ≤ 1/20 := by
  have hsq : ∀ c a : ℝ, Real.sqrt (c ^ 2 * a) = |c| * Real.sqrt a := by
    intro c a
    rcases le_or_lt 0 a with ha | ha
    · rw [Real.sqrt_mul (sq_nonneg c) a, Real.sqrt_sq_eq_abs]
    · have h1 : Real.sqrt (c ^ 2 * a) = 0 :=
        Real.sqrt_eq_zero_of_nonpos (by nlinarith [sq_nonneg c])
      have h2 : Real.sqrt a = 0 := Real.sqrt_eq_zero_of_nonpos ha.le
      rw [h1, h2, mul_zero]
  have hr : realizedDistance Real.sqrt (((0 : ℝ), 0), (1, 0)) = 1 := by
    show Real.sqrt _ = 1
    rw [show ((0 : ℝ) - 1) * ((0 : ℝ) - 1) + ((0 : ℝ) - 0) * ((0 : ℝ) - 0) = 1 by
      norm_num]
    exact Real.sqrt_one
  refine ⟨by rw [hr]; norm_num, ?_⟩
  refine C8_two_point_convergence Real.sqrt hsq (1/2) _ (by norm_num) (by norm_num)
    (by rw [hr]; norm_num) ?_
  rw [hr, show |(1 : ℝ) - 1/2| = 1/2 by rw [abs_of_nonneg (by norm_num)]; norm_num]
  norm_num

end ScentEngine

